import Mathlib

/-!
Verification development for the workspace-state synchronization core of the
rust-analyzer language server (`crates/rust-analyzer/src/global_state.rs`).

The definitions below shallowly embed `GlobalState`, `GlobalStateSnapshot` and
their operations.  External collaborator crates (`vfs`, `ra_ide`,
`ra_project_model`, `lsp_server`, the line-endings module, …) are not part of
the sources under verification; where their behaviour is needed it is modelled
from the specification, and each such definition carries a doc comment
starting with `Modelled from the spec:`.

Conventions of the embedding:
* Rust's in-place mutation becomes explicit state passing: an operation on
  `GlobalState` returns the new `GlobalState` (paired with its return value).
* The `Arc<RwLock<(Vfs, FxHashMap<FileId, LineEndings>)>>` cell that the
  container and every snapshot share is represented by the container's `vfs`
  field; a snapshot query that reads through its aliased `Arc` takes the
  cell's current contents as an explicit argument, which models the sharing:
  after the container mutates the cell, queries through any previously taken
  snapshot see the mutated cell.
* A Rust `panic` (out-of-range index, `unwrap` failure) is modelled by the
  `none` case of an `Option`-returning function.
* Hash maps become association lists: `insert` replaces the binding of an
  existing key, lookup returns the unique binding.
-/

/-- Association-list lookup: the binding of `key`, if present. -/
def alookup {α β : Type} [DecidableEq α] (key : α) : List (α × β) → Option β
  | [] => none
  | (k, v) :: rest => if k = key then some v else alookup key rest

/-- Association-list insert with replacement, the lookup semantics of
`FxHashMap::insert`. -/
def insertAssoc {α β : Type} [DecidableEq α] : List (α × β) → α → β → List (α × β)
  | [], k, v => [(k, v)]
  | (k0, v0) :: rest, k, v =>
    if k0 = k then (k, v) :: rest else (k0, v0) :: insertAssoc rest k v

/-- `FileId`: stable small integer key identifying a tracked file. -/
abbrev FileId := Nat

/-- Modelled from the spec: per-file record of whether the original content
used single- or double-character line terminators
(`crate::line_endings::LineEndings`, not under the verified sources). -/
inductive LineEndings
  | unix
  | dos
deriving DecidableEq, Repr

/-- Modelled from the spec: an absolute, normalized path, the external key of
the Virtual File Table (`ra_db::VfsPath`; the spec fixes table keys to be
absolute paths, so the embedding carries only the absolute component list). -/
structure VfsPath where
  components : List String
deriving DecidableEq, Repr

/-- Modelled from the spec: the kind of a Change Record, one of
created / modified / deleted. -/
inductive ChangeKind
  | create
  | modify
  | delete
deriving DecidableEq, Repr

/-- Modelled from the spec: one Change Record of the Virtual File Table
(`vfs::ChangedFile`): a create/modify/delete event for a `FileId`. -/
structure ChangedFile where
  file_id : FileId
  kind : ChangeKind
deriving DecidableEq, Repr

/-- Modelled from the spec: `vfs::ChangedFile::exists` — the file still exists
after the event unless the event is a deletion. -/
def ChangedFile.fileExists (f : ChangedFile) : Bool :=
  f.kind ≠ ChangeKind.delete

/-- Modelled from the spec: `vfs::ChangedFile::is_created_or_deleted` — the
record is a structural (create-or-delete) event, not a pure content edit. -/
def ChangedFile.is_created_or_deleted (f : ChangedFile) : Bool :=
  f.kind = ChangeKind.create ∨ f.kind = ChangeKind.delete

/-- Modelled from the spec: the Virtual File Table (`vfs::Vfs`): a map from
paths to `FileId`s, the current byte contents of existing files, and the queue
of pending Change Records accumulated since the last drain. -/
structure Vfs where
  paths : List (VfsPath × FileId)
  contents : List (FileId × List Nat)
  pending : List ChangedFile
deriving DecidableEq, Repr

/-- Modelled from the spec: `Vfs::file_id` — resolve a path to its `FileId`,
`none` when the path was never observed. -/
def Vfs.file_id (vfs : Vfs) (p : VfsPath) : Option FileId :=
  alookup p vfs.paths

/-- Reverse lookup in the path table: the path interned for `id`. -/
def rlookupPath (id : FileId) : List (VfsPath × FileId) → Option VfsPath
  | [] => none
  | (p, i) :: rest => if i = id then some p else rlookupPath id rest

/-- Modelled from the spec: `Vfs::file_path` — the path of a `FileId`;
`none` models the out-of-range panic for an id the table never assigned. -/
def Vfs.file_path (vfs : Vfs) (id : FileId) : Option VfsPath :=
  rlookupPath id vfs.paths

/-- Modelled from the spec: `Vfs::file_contents` — the current bytes of an
existing file. -/
def Vfs.file_contents (vfs : Vfs) (id : FileId) : List Nat :=
  (alookup id vfs.contents).getD []

/-- Modelled from the spec: `Vfs::take_changes` — drain and return the queue
of pending Change Records, leaving the queue empty. -/
def Vfs.take_changes (vfs : Vfs) : List ChangedFile × Vfs :=
  (vfs.pending, { vfs with pending := [] })

/-- Continuation byte test for UTF-8 decoding. -/
def isCont (b : Nat) : Bool :=
  decide (0x80 ≤ b ∧ b ≤ 0xBF)

/-- Second-byte test for a three-byte UTF-8 sequence led by `b1`
(excludes overlong encodings and surrogates). -/
def cont2ok (b1 b2 : Nat) : Bool :=
  if b1 = 0xE0 then decide (0xA0 ≤ b2 ∧ b2 ≤ 0xBF)
  else if b1 = 0xED then decide (0x80 ≤ b2 ∧ b2 ≤ 0x9F)
  else isCont b2

/-- Second-byte test for a four-byte UTF-8 sequence led by `b1`
(excludes overlong encodings and codepoints past U+10FFFF). -/
def cont3ok (b1 b2 : Nat) : Bool :=
  if b1 = 0xF0 then decide (0x90 ≤ b2 ∧ b2 ≤ 0xBF)
  else if b1 = 0xF4 then decide (0x80 ≤ b2 ∧ b2 ≤ 0x8F)
  else isCont b2

/-- Modelled from the spec: decoding raw bytes as text
(`String::from_utf8(bytes).ok()` in the source): a strict UTF-8 decoder that
returns `none` exactly when the bytes are not valid text. -/
def utf8Decode : List Nat → Option (List Char)
  | [] => some []
  | b :: rest =>
    if b ≤ 0x7F then
      (utf8Decode rest).map (fun cs => Char.ofNat b :: cs)
    else if 0xC2 ≤ b ∧ b ≤ 0xDF then
      match rest with
      | b2 :: rest2 =>
        if isCont b2 then
          (utf8Decode rest2).map
            (fun cs => Char.ofNat ((b - 0xC0) * 0x40 + (b2 - 0x80)) :: cs)
        else none
      | [] => none
    else if 0xE0 ≤ b ∧ b ≤ 0xEF then
      match rest with
      | b2 :: b3 :: rest3 =>
        if cont2ok b b2 && isCont b3 then
          (utf8Decode rest3).map (fun cs =>
            Char.ofNat ((b - 0xE0) * 0x1000 + (b2 - 0x80) * 0x40 + (b3 - 0x80)) :: cs)
        else none
      | _ => none
    else if 0xF0 ≤ b ∧ b ≤ 0xF4 then
      match rest with
      | b2 :: b3 :: b4 :: rest4 =>
        if cont3ok b b2 && isCont b3 && isCont b4 then
          (utf8Decode rest4).map (fun cs =>
            Char.ofNat ((b - 0xF0) * 0x40000 + (b2 - 0x80) * 0x1000
              + (b3 - 0x80) * 0x40 + (b4 - 0x80)) :: cs)
        else none
      | _ => none
    else none

/-- Replace every `"\r\n"` pair by `"\n"`, reporting whether any pair was
seen. -/
def normalizeChars : List Char → List Char × Bool
  | [] => ([], false)
  | '\r' :: '\n' :: rest =>
    let r := normalizeChars rest
    ('\n' :: r.1, true)
  | c :: rest =>
    let r := normalizeChars rest
    (c :: r.1, r.2)

/-- Modelled from the spec: `LineEndings::normalize` — canonicalize the text
to single-character line terminators and report which convention the original
used (`dos` exactly when a `"\r\n"` occurred). -/
def LineEndings.normalize (text : List Char) : List Char × LineEndings :=
  let r := normalizeChars text
  (r.1, if r.2 then LineEndings.dos else LineEndings.unix)

/-- A source root: one partition class of the known files.  The partitioning
algorithm itself is out of the spec's scope. -/
abbrev SourceRoot := List FileId

/-- Modelled from the spec: the configuration from which source roots are
recomputed (`crate::reload::SourceRootConfig`, not under the verified
sources). -/
structure SourceRootConfig where
  local_filesets : List Nat
deriving DecidableEq, Repr

/-- Modelled from the spec: `SourceRootConfig::partition` — recompute the
source-root partitioning of the Virtual File Table.  The spec places the
workspace-model algorithm out of scope, so the embedding uses the coarsest
partition, every known file in one root; the claims only depend on when the
result is computed and attached to a batch, not on its exact value. -/
def SourceRootConfig.partition (_c : SourceRootConfig) (vfs : Vfs) : List SourceRoot :=
  [vfs.paths.map (fun e => e.2)]

/-- Modelled from the spec: `ra_ide::AnalysisChange` — one atomic batched
update: an optional new source-root partitioning plus the list of per-file
content changes (`none` content means the file is absent/non-text). -/
structure AnalysisChange where
  roots : Option (List SourceRoot)
  files_changed : List (FileId × Option (List Char))
deriving DecidableEq, Repr

/-- Modelled from the spec: `AnalysisChange::new` — an empty batch. -/
def AnalysisChange.new : AnalysisChange :=
  ⟨none, []⟩

/-- Modelled from the spec: `AnalysisChange::set_roots`. -/
def AnalysisChange.set_roots (c : AnalysisChange) (r : List SourceRoot) : AnalysisChange :=
  { c with roots := some r }

/-- Modelled from the spec: `AnalysisChange::change_file` — append one
per-file content change to the batch. -/
def AnalysisChange.change_file (c : AnalysisChange) (id : FileId)
    (text : Option (List Char)) : AnalysisChange :=
  { c with files_changed := c.files_changed ++ [(id, text)] }

/-- Apply the per-file changes of a batch to a file-content map. -/
def applyFileChanges : List (FileId × Option (List Char)) →
    List (FileId × Option (List Char)) → List (FileId × Option (List Char))
  | db, [] => db
  | db, (id, t) :: rest => applyFileChanges (insertAssoc db id t) rest

/-- Modelled from the spec: `ra_ide::AnalysisHost` — the Analysis Database
handle: a revision counter that advances exactly once per applied batch, the
current roots and file texts, plus the data its read-only queries serve
(crate-root map, status text) and the cancellation flag observed by pinned
readers. -/
structure AnalysisHost where
  revision : Nat
  roots : List SourceRoot
  db : List (FileId × Option (List Char))
  crateRoots : List (Nat × FileId)
  statusText : String
  cancelFlag : Bool
deriving DecidableEq, Repr

/-- Modelled from the spec: `AnalysisHost::apply_change` — apply one atomic
batch: the revision advances by one, the roots are replaced when the batch
carries a partitioning, and the per-file changes are written. -/
def AnalysisHost.apply_change (h : AnalysisHost) (c : AnalysisChange) : AnalysisHost :=
  { h with
    revision := h.revision + 1
    roots := c.roots.getD h.roots
    db := applyFileChanges h.db c.files_changed }

/-- Modelled from the spec: `ra_ide::Analysis` — a pinned read-only handle to
one revision of the Analysis Database; `cancelled` records whether queries
against this pinned revision observe cancellation (a newer write superseding
it, or an explicit cancellation request). -/
structure Analysis where
  revision : Nat
  db : List (FileId × Option (List Char))
  crateRoots : List (Nat × FileId)
  statusText : String
  cancelled : Bool
deriving DecidableEq, Repr

/-- Modelled from the spec: `AnalysisHost::analysis` — pin the current
revision for read-only use. -/
def AnalysisHost.analysis (h : AnalysisHost) : Analysis :=
  ⟨h.revision, h.db, h.crateRoots, h.statusText, h.cancelFlag⟩

/-- Modelled from the spec: `Analysis::crate_root(..).ok()` — the root file
of a crate, `none` when the query observes cancellation (or the crate is
unknown). -/
def Analysis.crate_root (a : Analysis) (crate_id : Nat) : Option FileId :=
  if a.cancelled then none else alookup crate_id a.crateRoots

/-- Modelled from the spec: `Analysis::status` — the database's own status
string, or a cancellation error when a newer write superseded this pinned
revision. -/
def Analysis.status (a : Analysis) : Except Unit String :=
  if a.cancelled then Except.error () else Except.ok a.statusText

/-- Modelled from the spec: `ra_project_model::Target` — build-system target
metadata. -/
structure Target where
  name : String
deriving DecidableEq, Repr

/-- Modelled from the spec: `ra_project_model::CargoWorkspace` — a cargo
workspace: its package count and the map from target root paths to targets. -/
structure CargoWorkspace where
  npackages : Nat
  targets : List (VfsPath × Target)
deriving DecidableEq, Repr

/-- Modelled from the spec: `CargoWorkspace::target_by_root` — the target
whose root is the given path, if this workspace claims it. -/
def CargoWorkspace.target_by_root (ws : CargoWorkspace) (root : VfsPath) : Option Target :=
  alookup root ws.targets

/-- Modelled from the spec: a workspace described by a `rust-project.json`
file. -/
structure JsonProject where
  ncrates : Nat
deriving DecidableEq, Repr

/-- Modelled from the spec: `ra_project_model::ProjectWorkspace` — the closed
tagged-variant set of known workspace kinds. -/
inductive ProjectWorkspace
  | cargo (cargo : CargoWorkspace)
  | json (project : JsonProject)
deriving DecidableEq, Repr

/-- Modelled from the spec: `ProjectWorkspace::n_packages`. -/
def ProjectWorkspace.n_packages : ProjectWorkspace → Nat
  | .cargo c => c.npackages
  | .json p => p.ncrates

/-- Modelled from the spec: `lsp_server::Response` — an outbound response,
carrying the correlation id of the request it completes. -/
structure Response where
  id : Nat
  result : String
deriving DecidableEq, Repr

/-- Modelled from the spec: one completed-request observability record
(`crate::request_metrics::RequestMetrics`). -/
structure RequestMetrics where
  id : Nat
  method : String
  duration : Nat
deriving DecidableEq, Repr

/-- Bound of the `LatestRequests` ring (the reference keeps the most recent
64 completions). -/
def latestRequestsCapacity : Nat := 64

/-- Modelled from the spec: the bounded ring of recently completed requests
(`crate::request_metrics::LatestRequests`). -/
abbrev LatestRequests := List RequestMetrics

/-- Modelled from the spec: `LatestRequests::record` — append one completion
record, evicting the oldest when the ring is full. -/
def LatestRequests.record (xs : LatestRequests) (m : RequestMetrics) : LatestRequests :=
  let xs := xs ++ [m]
  if latestRequestsCapacity < xs.length then xs.drop (xs.length - latestRequestsCapacity)
  else xs

/-- One Pending entry of the Request Ledger: correlation id, method name,
start timestamp. -/
abbrev ReqEntry := Nat × String × Nat

/-- Modelled from the spec: `ReqQueue::incoming::complete` — remove the
Pending entry for `id` and return its method and start timestamp; `none` when
the id is not in the ledger (already completed, cancelled, or unknown). -/
def completeIncoming : List ReqEntry → Nat → Option ((String × Nat) × List ReqEntry)
  | [], _ => none
  | (i, m, s) :: rest, id =>
    if i = id then some ((m, s), rest)
    else (completeIncoming rest id).map (fun r => (r.1, (i, m, s) :: r.2))

/-- Number of ledger entries carrying the given correlation id. -/
def countId : List ReqEntry → Nat → Nat
  | [], _ => 0
  | (i, _, _) :: rest, id => (if i = id then 1 else 0) + countId rest id

/-- Process-wide readiness flag ({Loading, Ready}), from the source. -/
inductive Status
  | loading
  | ready
deriving DecidableEq, Repr

/-- `GlobalState`, the primary mutable state of the language server, from the
source.  The channel handles (`task_pool`, `loader`, `flycheck`) carry no
claim-relevant state and are omitted; `sender` is represented by the list of
messages sent on the outbound channel so far, and `now` is the monotone clock
from which request durations are computed.  The `vfs` field is the pointee of
the `Arc<RwLock<…>>` cell shared with every snapshot. -/
structure GlobalState where
  sender : List Response
  config : Nat
  analysis_host : AnalysisHost
  vfs : Vfs × List (FileId × LineEndings)
  status : Status
  req_queue : List ReqEntry
  source_root_config : SourceRootConfig
  workspaces : List ProjectWorkspace
  latest_requests : LatestRequests
  now : Nat
deriving DecidableEq, Repr

/-- `GlobalStateSnapshot`, an immutable snapshot of the world's state, from
the source.  `config` and `workspaces` are copies (the source clones the
config and `Arc`-shares the workspace list, which is only ever replaced
wholesale, never mutated); `analysis` is the pinned database handle.  The
`vfs` and `latest_requests` fields of the source are `Arc` clones of the
container's cells: in the embedding a query through them takes the cell's
current contents as an explicit `shared` argument. -/
structure GlobalStateSnapshot where
  config : Nat
  analysis : Analysis
  workspaces : List ProjectWorkspace
deriving DecidableEq, Repr

/-- The text stored for one drained Change Record before normalization:
the decoded current bytes when the file still exists and decodes, otherwise
`none` (file deleted, or bytes not valid text). -/
def decodedText (vfs : Vfs) (f : ChangedFile) : Option (List Char) :=
  if f.fileExists then utf8Decode (vfs.file_contents f.file_id) else none

/-- One iteration of the `for file in changed_files` loop of
`GlobalState::process_changes`: on successful decode, normalize the text,
record the line endings, and add the text to the batch; otherwise add an
absent content change and leave the line-endings map alone. -/
def changeStep (vfs : Vfs) (acc : AnalysisChange × List (FileId × LineEndings))
    (file : ChangedFile) : AnalysisChange × List (FileId × LineEndings) :=
  match decodedText vfs file with
  | some raw =>
    let r := LineEndings.normalize raw
    (acc.1.change_file file.file_id (some r.1), insertAssoc acc.2 file.file_id r.2)
  | none => (acc.1.change_file file.file_id none, acc.2)

/-- The body of `GlobalState::process_changes` acting on the shared
`(Vfs, LineEndings map)` cell: drain the pending Change Records; `none` when
none were pending; otherwise build the batch — recomputing and attaching the
source-root partitioning exactly when some record is a create-or-delete —
and return it with the updated cell. -/
def drainAndBatch (cfg : SourceRootConfig) (cell : Vfs × List (FileId × LineEndings)) :
    Option (AnalysisChange × (Vfs × List (FileId × LineEndings))) :=
  let p := cell.1.take_changes
  let changed_files := p.1
  let vfs := p.2
  if changed_files.isEmpty then none
  else
    let change := AnalysisChange.new
    let change :=
      if changed_files.any (fun it => it.is_created_or_deleted) then
        change.set_roots (cfg.partition vfs)
      else change
    let r := changed_files.foldl (changeStep vfs) (change, cell.2)
    some (r.1, (vfs, r.2))

/-- `GlobalState::process_changes`, from the source: drain pending Change
Records from the Virtual File Table; return `false` and do nothing when none
are pending; otherwise apply the resulting batch to the Analysis Database and
return `true`. -/
def GlobalState.process_changes (gs : GlobalState) : Bool × GlobalState :=
  match drainAndBatch gs.source_root_config gs.vfs with
  | none => (false, gs)
  | some (change, cell) =>
    (true, { gs with vfs := cell, analysis_host := gs.analysis_host.apply_change change })

/-- `GlobalState::snapshot`, from the source: clone the config, share the
workspace list, pin a fresh read handle from the Analysis Database, and share
the Virtual-File-Table and latest-requests cells. -/
def GlobalState.snapshot (gs : GlobalState) : GlobalStateSnapshot :=
  { config := gs.config
    workspaces := gs.workspaces
    analysis := gs.analysis_host.analysis }

/-- `GlobalState::respond`, from the source: look the response's id up in the
Request Ledger; when found, remove the entry, record the elapsed duration
into `LatestRequests` and forward the response to the outbound channel; when
not found, do nothing. -/
def GlobalState.respond (gs : GlobalState) (response : Response) : GlobalState :=
  match completeIncoming gs.req_queue response.id with
  | some ((method, start), rest) =>
    let duration := gs.now - start
    let metrics : RequestMetrics := ⟨response.id, method, duration⟩
    { gs with
      req_queue := rest
      latest_requests := gs.latest_requests.record metrics
      sender := gs.sender ++ [response] }
  | none => gs

/-- A URL, the external form of a file reference; the conversion layers
(`url_from_abs_path`, `from_proto::abs_path`) are out of the spec's scope, so
the embedding carries the absolute path itself. -/
structure Url where
  path : VfsPath
deriving DecidableEq, Repr

/-- Modelled from the spec: `to_proto::url_from_abs_path`. -/
def url_from_abs_path (p : VfsPath) : Url :=
  ⟨p⟩

/-- Modelled from the spec: `from_proto::abs_path` — interpret a URL as an
absolute path. -/
def from_proto_abs_path (u : Url) : Except String VfsPath :=
  Except.ok u.path

/-- The free function `file_id_to_url`, from the source (renamed here so it
does not shadow the snapshot method of the same source name): look the id's
path up in the Virtual File Table and convert it to a URL; `none` models the
panic on an id the table never assigned. -/
def fileIdToUrl (vfs : Vfs) (id : FileId) : Option Url :=
  (vfs.file_path id).map url_from_abs_path

/-- `GlobalStateSnapshot::url_to_file_id`, from the source: resolve a URL to
an absolute path, then to a `FileId` through the shared Virtual File Table;
fails with a not-found error when the path was never observed. -/
def GlobalStateSnapshot.url_to_file_id (_snap : GlobalStateSnapshot)
    (shared : Vfs × List (FileId × LineEndings)) (url : Url) : Except String FileId :=
  match from_proto_abs_path url with
  | Except.error e => Except.error e
  | Except.ok path =>
    match shared.1.file_id path with
    | some id => Except.ok id
    | none => Except.error "file not found"

/-- `GlobalStateSnapshot::file_id_to_url`, from the source. -/
def GlobalStateSnapshot.file_id_to_url (_snap : GlobalStateSnapshot)
    (shared : Vfs × List (FileId × LineEndings)) (id : FileId) : Option Url :=
  fileIdToUrl shared.1 id

/-- `GlobalStateSnapshot::file_line_endings`, from the source: index the
shared line-endings map; `none` models the out-of-range panic for a file
never touched by any change batch. -/
def GlobalStateSnapshot.file_line_endings (_snap : GlobalStateSnapshot)
    (shared : Vfs × List (FileId × LineEndings)) (id : FileId) : Option LineEndings :=
  alookup id shared.2

/-- The per-workspace lookup tried by `cargo_target_for_crate_root`'s
`find_map` closure, from the source: a cargo workspace is asked for the
target rooted at the path, a json workspace never matches. -/
def wsTargetLookup (path : VfsPath) : ProjectWorkspace → Option (CargoWorkspace × Target)
  | .cargo c => (c.target_by_root path).map (fun t => (c, t))
  | .json _ => none

/-- `GlobalStateSnapshot::cargo_target_for_crate_root`, from the source:
resolve the crate's root file, look its path up in the shared Virtual File
Table, and scan the shared workspace list with `find_map`, trying each
variant's lookup and returning the first match. -/
def GlobalStateSnapshot.cargo_target_for_crate_root (snap : GlobalStateSnapshot)
    (shared : Vfs × List (FileId × LineEndings)) (crate_id : Nat) :
    Option (CargoWorkspace × Target) :=
  match snap.analysis.crate_root crate_id with
  | none => none
  | some file_id =>
    match shared.1.file_path file_id with
    | none => none
    | some path => snap.workspaces.findSome? (wsTargetLookup path)

/-- `GlobalStateSnapshot::status`, from the source: render the workspace
package counts (or a no-workspaces line), then the Analysis Database's own
status string, substituting a fixed message when the status query was
cancelled. -/
def GlobalStateSnapshot.status (snap : GlobalStateSnapshot) : String :=
  let buf : String := ""
  let buf :=
    if snap.workspaces.isEmpty then buf ++ "no workspaces\n"
    else
      snap.workspaces.foldl
        (fun b w => b ++ toString w.n_packages ++ " packages loaded\n")
        (buf ++ "workspaces:\n")
  let buf := buf ++ "\nanalysis:\n"
  let buf := buf ++
    (match snap.analysis.status with
     | Except.ok s => s
     | Except.error _ => "Analysis retrieval was cancelled")
  buf

/-- The `files_changed` entry that `process_changes` produces for one drained
Change Record: the normalized decoded text, or absent content. -/
def entryFor (vfs : Vfs) (f : ChangedFile) : FileId × Option (List Char) :=
  (f.file_id, (decodedText vfs f).map (fun t => (LineEndings.normalize t).1))

/-- The effect of one drained Change Record on the line-endings map: insert
the detected endings on successful decode, otherwise leave the map alone. -/
def lemStep (vfs : Vfs) (lem : List (FileId × LineEndings)) (f : ChangedFile) :
    List (FileId × LineEndings) :=
  match decodedText vfs f with
  | some t => insertAssoc lem f.file_id (LineEndings.normalize t).2
  | none => lem

/-- The line endings recorded for `id` by the most recent successful decode
within one drained batch, if any (later records win). -/
def batchRecorded (vfs : Vfs) (id : FileId) : List ChangedFile → Option LineEndings
  | [] => none
  | f :: rest =>
    match batchRecorded vfs id rest with
    | some le => some le
    | none =>
      if f.file_id = id then
        match decodedText vfs f with
        | some t => some (LineEndings.normalize t).2
        | none => none
      else none

theorem alookup_insertAssoc_self {α β : Type} [DecidableEq α]
    (m : List (α × β)) (k : α) (v : β) :
    alookup k (insertAssoc m k v) = some v := by
  induction m with
  | nil => simp [insertAssoc, alookup]
  | cons hd tl ih =>
    obtain ⟨k0, v0⟩ := hd
    by_cases h : k0 = k
    · simp [insertAssoc, h, alookup]
    · simp [insertAssoc, h, alookup, ih]

theorem alookup_insertAssoc_ne {α β : Type} [DecidableEq α]
    (m : List (α × β)) (k k2 : α) (v : β) (h : k ≠ k2) :
    alookup k (insertAssoc m k2 v) = alookup k m := by
  induction m with
  | nil => simp [insertAssoc, alookup, Ne.symm h]
  | cons hd tl ih =>
    obtain ⟨k0, v0⟩ := hd
    by_cases h2 : k0 = k2
    · subst h2
      simp [insertAssoc, alookup, Ne.symm h]
    · by_cases h0 : k0 = k
      · simp [insertAssoc, h2, alookup, h0, h]
      · simp [insertAssoc, h2, alookup, h0, ih]

theorem changeStep_eq (vfs : Vfs) (acc : AnalysisChange × List (FileId × LineEndings))
    (f : ChangedFile) :
    changeStep vfs acc f =
      (acc.1.change_file f.file_id
        ((decodedText vfs f).map (fun t => (LineEndings.normalize t).1)),
       lemStep vfs acc.2 f) := by
  cases hd : decodedText vfs f <;> simp [changeStep, lemStep, hd]

theorem foldl_changeStep_spec (vfs : Vfs) (files : List ChangedFile) :
    ∀ (c : AnalysisChange) (m : List (FileId × LineEndings)),
      (files.foldl (changeStep vfs) (c, m)).1.files_changed
          = c.files_changed ++ files.map (entryFor vfs)
        ∧ (files.foldl (changeStep vfs) (c, m)).1.roots = c.roots
        ∧ (files.foldl (changeStep vfs) (c, m)).2 = files.foldl (lemStep vfs) m := by
  induction files with
  | nil => intro c m; simp
  | cons f rest ih =>
    intro c m
    rw [List.foldl_cons, List.foldl_cons, changeStep_eq]
    obtain ⟨h1, h2, h3⟩ :=
      ih (c.change_file f.file_id
            ((decodedText vfs f).map (fun t => (LineEndings.normalize t).1)))
         (lemStep vfs m f)
    refine ⟨?_, ?_, h3⟩
    · rw [h1]
      simp [AnalysisChange.change_file, entryFor]
    · rw [h2]
      simp [AnalysisChange.change_file]

theorem alookup_foldl_lemStep (vfs : Vfs) (id : FileId) (files : List ChangedFile) :
    ∀ m, alookup id (files.foldl (lemStep vfs) m)
      = match batchRecorded vfs id files with
        | some le => some le
        | none => alookup id m := by
  induction files with
  | nil => intro m; simp [batchRecorded]
  | cons f rest ih =>
    intro m
    rw [List.foldl_cons, ih (lemStep vfs m f)]
    cases hr : batchRecorded vfs id rest with
    | some le => simp [batchRecorded, hr]
    | none =>
      simp only [batchRecorded, hr]
      by_cases hid : f.file_id = id
      · cases hd : decodedText vfs f with
        | some t =>
          subst hid
          simp [lemStep, hd, alookup_insertAssoc_self]
        | none => simp [lemStep, hd, hid]
      · cases hd : decodedText vfs f with
        | some t =>
          simp [lemStep, hd, hid, alookup_insertAssoc_ne _ _ _ _ (Ne.symm hid)]
        | none => simp [lemStep, hd, hid]

theorem vfs_drop_pending (v : Vfs) (h : v.pending = []) :
    ({ v with pending := [] } : Vfs) = v := by
  cases v
  simp_all

theorem decodedText_drop_pending (v : Vfs) (q : List ChangedFile) (f : ChangedFile) :
    decodedText { v with pending := q } f = decodedText v f := rfl

theorem batchRecorded_drop_pending (v : Vfs) (q : List ChangedFile) (id : FileId)
    (files : List ChangedFile) :
    batchRecorded { v with pending := q } id files = batchRecorded v id files := by
  induction files with
  | nil => rfl
  | cons f rest ih => simp [batchRecorded, ih, decodedText_drop_pending]

/-- `process_changes` never touches the path table or the byte contents of
the Virtual File Table: the only change to the `Vfs` half of the shared cell
is that the pending queue is drained. -/
theorem process_changes_vfs (gs : GlobalState) :
    (gs.process_changes).2.vfs.1 = { gs.vfs.1 with pending := [] } := by
  unfold GlobalState.process_changes drainAndBatch Vfs.take_changes
  cases hp : gs.vfs.1.pending with
  | nil => simp [hp, vfs_drop_pending gs.vfs.1 hp]
  | cons f rest => simp [hp]

/-- What `process_changes` leaves in the line-endings half of the shared
cell at each key: the endings of the most recent successful decode for that
key in the drained batch, else the previous binding. -/
theorem lookupLineEndingsAfter (gs : GlobalState) (id : FileId) :
    alookup id (gs.process_changes).2.vfs.2
      = match batchRecorded gs.vfs.1 id gs.vfs.1.pending with
        | some le => some le
        | none => alookup id gs.vfs.2 := by
  unfold GlobalState.process_changes drainAndBatch Vfs.take_changes
  cases hp : gs.vfs.1.pending with
  | nil => simp [hp, batchRecorded]
  | cons f rest =>
    simp only [hp, List.isEmpty_cons, Bool.false_eq_true, if_false]
    rw [(foldl_changeStep_spec _ _ _ _).2.2, alookup_foldl_lemStep,
      batchRecorded_drop_pending]

theorem entryFor_drop_pending (v : Vfs) (q : List ChangedFile) :
    entryFor { v with pending := q } = entryFor v := rfl

theorem lemStep_drop_pending (v : Vfs) (q : List ChangedFile) :
    lemStep { v with pending := q } = lemStep v := rfl

theorem partition_drop_pending (c : SourceRootConfig) (v : Vfs) (q : List ChangedFile) :
    c.partition { v with pending := q } = c.partition v := rfl

theorem drainAndBatch_none_iff (cfg : SourceRootConfig)
    (cell : Vfs × List (FileId × LineEndings)) :
    drainAndBatch cfg cell = none ↔ cell.1.pending = [] := by
  unfold drainAndBatch Vfs.take_changes
  cases hp : cell.1.pending <;> simp [hp]

/-- Full characterization of a successful drain: the pending queue was
non-empty, the batch's roots are the recomputed partitioning exactly when a
create-or-delete record was drained, the per-file changes are the decoded
texts in drain order, and the new cell is the drained table with the
line-endings insertions of the successful decodes. -/
theorem drainAndBatch_some (cfg : SourceRootConfig)
    (cell : Vfs × List (FileId × LineEndings)) (change : AnalysisChange)
    (cell2 : Vfs × List (FileId × LineEndings))
    (h : drainAndBatch cfg cell = some (change, cell2)) :
    cell.1.pending ≠ []
      ∧ change.roots
          = (if cell.1.pending.any (fun it => it.is_created_or_deleted)
             then some (cfg.partition cell.1) else none)
      ∧ change.files_changed = cell.1.pending.map (entryFor cell.1)
      ∧ cell2 = ({ cell.1 with pending := [] },
                 cell.1.pending.foldl (lemStep cell.1) cell.2) := by
  unfold drainAndBatch Vfs.take_changes at h
  cases hp : cell.1.pending with
  | nil => simp [hp] at h
  | cons f rest =>
    rw [hp] at h
    by_cases ha : (f :: rest).any (fun it => it.is_created_or_deleted) = true
    · simp only [List.isEmpty_cons, if_false, Bool.false_eq_true, ha, if_true,
        Option.some.injEq] at h
      obtain ⟨hc, hcell⟩ := Prod.mk.injEq .. ▸ h
      obtain ⟨h1, _h2, h3⟩ := foldl_changeStep_spec { cell.1 with pending := [] }
        (f :: rest) (AnalysisChange.new.set_roots (cfg.partition { cell.1 with pending := [] }))
        cell.2
      refine ⟨by simp [hp], ?_, ?_, ?_⟩
      · rw [← hc, (foldl_changeStep_spec _ _ _ _).2.1]
        simp [ha, AnalysisChange.set_roots, AnalysisChange.new, partition_drop_pending]
      · rw [← hc, (foldl_changeStep_spec _ _ _ _).1]
        simp [AnalysisChange.set_roots, AnalysisChange.new, entryFor_drop_pending]
      · rw [← hcell, (foldl_changeStep_spec _ _ _ _).2.2]
        simp [lemStep_drop_pending]
    · simp only [List.isEmpty_cons, if_false, Bool.false_eq_true, ha, if_true,
        Option.some.injEq] at h
      obtain ⟨hc, hcell⟩ := Prod.mk.injEq .. ▸ h
      refine ⟨by simp [hp], ?_, ?_, ?_⟩
      · rw [← hc, (foldl_changeStep_spec _ _ _ _).2.1]
        simp [ha, AnalysisChange.new]
      · rw [← hc, (foldl_changeStep_spec _ _ _ _).1]
        simp [AnalysisChange.new, entryFor_drop_pending]
      · rw [← hcell, (foldl_changeStep_spec _ _ _ _).2.2]
        simp [lemStep_drop_pending]

theorem batchRecorded_ne_none_of_mem (vfs : Vfs) (files : List ChangedFile)
    (f : ChangedFile) (t : List Char) (hf : f ∈ files)
    (hd : decodedText vfs f = some t) :
    batchRecorded vfs f.file_id files ≠ none := by
  induction files with
  | nil => cases hf
  | cons g rest ih =>
    rcases List.mem_cons.mp hf with hg | hmem
    · subst hg
      cases hr : batchRecorded vfs f.file_id rest <;>
        simp [batchRecorded, hr, hd]
    · have := ih hmem
      cases hr : batchRecorded vfs f.file_id rest with
      | none => exact absurd hr this
      | some le => simp [batchRecorded, hr]

theorem countId_complete_some (q : List ReqEntry) (id : Nat) (m : String) (s : Nat)
    (rest : List ReqEntry) (h : completeIncoming q id = some ((m, s), rest)) :
    countId q id = countId rest id + 1 := by
  induction q generalizing rest with
  | nil => simp [completeIncoming] at h
  | cons e tl ih =>
    obtain ⟨i, m0, s0⟩ := e
    by_cases hi : i = id
    · simp only [completeIncoming, hi, if_true, Option.some.injEq] at h
      obtain ⟨-, hr⟩ := Prod.mk.injEq .. ▸ h
      subst hr
      simp [countId, hi, Nat.add_comm]
    · cases hc : completeIncoming tl id with
      | none => simp [completeIncoming, hi, hc] at h
      | some p =>
        obtain ⟨⟨pm, ps⟩, pr⟩ := p
        simp only [completeIncoming, hi, if_false, hc, Option.map,
          Option.some.injEq, Prod.mk.injEq] at h
        obtain ⟨⟨hm, hs⟩, hr⟩ := h
        subst hm
        subst hs
        subst hr
        simp [countId, hi, ih pr hc]

theorem completeIncoming_none_of_countZero (q : List ReqEntry) (id : Nat)
    (h : countId q id = 0) : completeIncoming q id = none := by
  induction q with
  | nil => rfl
  | cons e tl ih =>
    obtain ⟨i, m0, s0⟩ := e
    by_cases hi : i = id
    · simp [countId, hi] at h
    · simp only [countId, hi, if_false, Nat.zero_add] at h
      simp [completeIncoming, hi, ih h]

theorem rlookupPath_isSome_of_mem (l : List (VfsPath × FileId)) (p : VfsPath)
    (id : FileId) (h : (p, id) ∈ l) :
    ∃ p2, rlookupPath id l = some p2 := by
  induction l with
  | nil => cases h
  | cons e tl ih =>
    obtain ⟨p0, i0⟩ := e
    by_cases hi : i0 = id
    · exact ⟨p0, by simp [rlookupPath, hi]⟩
    · rcases List.mem_cons.mp h with he | hmem
      · cases he; exact absurd rfl hi
      · obtain ⟨p2, hp2⟩ := ih hmem
        exact ⟨p2, by simp [rlookupPath, hi, hp2]⟩

/-- The first workspace of the list whose variant lookup claims the path,
together with the claimed target: the spec's description of the single
dispatch point. -/
def firstWorkspaceTarget (path : VfsPath) :
    List ProjectWorkspace → Option (CargoWorkspace × Target)
  | [] => none
  | w :: rest =>
    match wsTargetLookup path w with
    | some r => some r
    | none => firstWorkspaceTarget path rest

theorem findSome_eq_firstWorkspaceTarget (path : VfsPath) (ws : List ProjectWorkspace) :
    ws.findSome? (wsTargetLookup path) = firstWorkspaceTarget path ws := by
  induction ws with
  | nil => rfl
  | cons w rest ih =>
    cases hw : wsTargetLookup path w <;>
      simp [List.findSome?, firstWorkspaceTarget, hw, ih]

theorem firstWorkspaceTarget_none (path : VfsPath) (ws : List ProjectWorkspace)
    (h : ∀ w ∈ ws, wsTargetLookup path w = none) :
    firstWorkspaceTarget path ws = none := by
  induction ws with
  | nil => rfl
  | cons w rest ih =>
    have hw := h w (List.mem_cons_self ..)
    simp only [firstWorkspaceTarget, hw]
    exact ih (fun w2 hw2 => h w2 (List.mem_cons_of_mem _ hw2))

/-- The per-workspace package-count lines of the status report. -/
def packagesLines : List ProjectWorkspace → String
  | [] => ""
  | w :: rest => toString w.n_packages ++ " packages loaded\n" ++ packagesLines rest

theorem foldl_packagesLines (l : List ProjectWorkspace) :
    ∀ a : String,
      l.foldl (fun b w => b ++ (toString w.n_packages ++ " packages loaded\n")) a
        = a ++ packagesLines l := by
  induction l with
  | nil => intro a; simp [packagesLines]
  | cons w rest ih =>
    intro a
    rw [List.foldl_cons, ih]
    simp [packagesLines, String.append_assoc]

/-- The workspace half of the status report, stated as the spec words it:
the package counts, or a no-workspaces line. -/
def workspacesSummary (ws : List ProjectWorkspace) : String :=
  if ws.isEmpty then "no workspaces\n" else "workspaces:\n" ++ packagesLines ws

/-- The database half of the status report, stated as the spec words it: the
database's own status string, with a cancelled query replaced by the fixed
substitution message. -/
def analysisStatusOrCancelled : Except Unit String → String
  | Except.ok s => s
  | Except.error _ => "Analysis retrieval was cancelled"

/-- Concrete Virtual File Table for witnesses: one tracked file `a.rs`
(id 0) whose current bytes are `"a\r\n"`, with a pending modify record. -/
def exVfsA : Vfs :=
  { paths := [(⟨["a.rs"]⟩, 0)]
    contents := [(0, [0x61, 0x0D, 0x0A])]
    pending := [⟨0, ChangeKind.modify⟩] }

/-- Concrete Analysis Database handle for witnesses: revision 0, crate 7
rooted at file 0, not cancelled. -/
def exHost : AnalysisHost :=
  ⟨0, [], [], [(7, 0)], "salsa ok", false⟩

/-- Concrete container state for witnesses: `exVfsA`, an empty line-endings
map, one pending request with id 1, and one cargo workspace claiming
`a.rs`. -/
def exGS : GlobalState :=
  { sender := []
    config := 0
    analysis_host := exHost
    vfs := (exVfsA, [])
    status := Status.loading
    req_queue := [(1, "textDocument/hover", 5)]
    source_root_config := ⟨[]⟩
    workspaces := [ProjectWorkspace.cargo ⟨2, [(⟨["a.rs"]⟩, ⟨"a"⟩)]⟩]
    latest_requests := []
    now := 9 }

/-- Claim C1, counterexample.  The claim states that a snapshot taken before
a `process_changes` call never observes, through `file_line_endings`, content
changes applied by that call, nothing reachable from it being mutated in
place.  In the code the snapshot `Arc`-shares the live
`(Vfs, LineEndings map)` cell, and `process_changes` inserts into that map in
place: here a snapshot taken before the call finds no entry for file 0
(the lookup would panic pre-call) yet after the call observes the `dos`
entry that very call recorded. -/
theorem c1_counterexample :
    (exGS.snapshot).file_line_endings (exGS.process_changes).2.vfs 0
        = some LineEndings.dos
      ∧ (exGS.snapshot).file_line_endings exGS.vfs 0 = none :=
  ⟨rfl, rfl⟩

/-- Claim C1, amended: queries through a pre-call snapshot observe the
pre-call Virtual File Table path table and contents — `url_to_file_id` and
`file_id_to_url` return the same results before and after `process_changes`,
which never touches the path table — and the snapshot's pinned analysis
handle is the pre-call one; but `file_line_endings` reads the shared
line-endings table, which `process_changes` mutates in place, so it can
observe entries inserted by that call (the counterexample). -/
theorem c1_amended (gs : GlobalState) (u : Url) (id : FileId) :
    (gs.snapshot).url_to_file_id (gs.process_changes).2.vfs u
        = (gs.snapshot).url_to_file_id gs.vfs u
      ∧ (gs.snapshot).file_id_to_url (gs.process_changes).2.vfs id
          = (gs.snapshot).file_id_to_url gs.vfs id
      ∧ (gs.snapshot).analysis = gs.analysis_host.analysis := by
  have hv := process_changes_vfs gs
  refine ⟨?_, ?_, rfl⟩
  · simp [GlobalStateSnapshot.url_to_file_id, from_proto_abs_path, hv, Vfs.file_id]
  · simp [GlobalStateSnapshot.file_id_to_url, fileIdToUrl, hv, Vfs.file_path]

theorem process_changes_fst_false (g : GlobalState)
    (h : drainAndBatch g.source_root_config g.vfs = none) :
    (g.process_changes).1 = false := by
  unfold GlobalState.process_changes
  rw [h]

/-- Claim C2: `process_changes` returns `false` exactly when no Change
Records are pending, in which case it performs no mutation at all (the state
is unchanged, hence the Analysis Database revision is unchanged); every call
that returns `true` applies exactly one `AnalysisChange`, advancing the
revision by exactly one; and a second call immediately after any call, with
no intervening producer activity, returns `false`. -/
theorem c2_empty_drain (gs : GlobalState) :
    ((gs.process_changes).1 = false ↔ gs.vfs.1.pending = [])
      ∧ ((gs.process_changes).1 = false → (gs.process_changes).2 = gs)
      ∧ ((gs.process_changes).1 = true →
          (gs.process_changes).2.analysis_host.revision
            = gs.analysis_host.revision + 1)
      ∧ ((gs.process_changes).2.process_changes).1 = false := by
  cases hd : drainAndBatch gs.source_root_config gs.vfs with
  | none =>
    have hp := (drainAndBatch_none_iff _ _).mp hd
    refine ⟨by simp [GlobalState.process_changes, hd, hp], ?_, ?_, ?_⟩
    · intro _
      simp [GlobalState.process_changes, hd]
    · intro hh
      simp [GlobalState.process_changes, hd] at hh
    · simp [GlobalState.process_changes, hd]
  | some p =>
    obtain ⟨change, cell2⟩ := p
    obtain ⟨hne, -, -, hcell⟩ := drainAndBatch_some _ _ _ _ hd
    refine ⟨by simp [GlobalState.process_changes, hd, hne], ?_, ?_, ?_⟩
    · intro hh
      simp [GlobalState.process_changes, hd] at hh
    · intro _
      simp [GlobalState.process_changes, hd, AnalysisHost.apply_change]
    · have h2 : (gs.process_changes).2.vfs.1.pending = [] := by
        simp [GlobalState.process_changes, hd, hcell]
      exact process_changes_fst_false _
        ((drainAndBatch_none_iff (gs.process_changes).2.source_root_config
          (gs.process_changes).2.vfs).mpr h2)

/-- Claim C2, witness: on a state with one pending record the call returns
`true` and the revision advances by exactly one. -/
theorem c2_witness :
    (exGS.process_changes).2.analysis_host.revision
      = exGS.analysis_host.revision + 1 :=
  (c2_empty_drain exGS).2.2.1 (by decide)

/-- Claim C3: completing an id absent from the Request Ledger is a complete
no-op — the state (outbound channel, metrics, ledger) is exactly unchanged;
completing a present id removes its entry, records the elapsed duration into
`LatestRequests` and forwards the response to the outbound channel; and when
the id occurs at most once, completing it twice appends exactly one outbound
message (the second call sends nothing). -/
theorem c3_respond (gs : GlobalState) (r : Response) :
    (completeIncoming gs.req_queue r.id = none → gs.respond r = gs)
      ∧ (∀ m s rest, completeIncoming gs.req_queue r.id = some ((m, s), rest) →
          (gs.respond r).sender = gs.sender ++ [r]
            ∧ (gs.respond r).latest_requests
                = gs.latest_requests.record ⟨r.id, m, gs.now - s⟩
            ∧ (gs.respond r).req_queue = rest)
      ∧ (countId gs.req_queue r.id ≤ 1 →
          ((gs.respond r).respond r).sender = (gs.respond r).sender) := by
  refine ⟨?_, ?_, ?_⟩
  · intro h
    simp [GlobalState.respond, h]
  · intro m s rest h
    simp [GlobalState.respond, h]
  · intro hcount
    cases hc : completeIncoming gs.req_queue r.id with
    | none => simp [GlobalState.respond, hc]
    | some p =>
      obtain ⟨⟨m, s⟩, rest⟩ := p
      have h1 := countId_complete_some _ _ _ _ _ hc
      have h0 : countId rest r.id = 0 := by omega
      have h2 := completeIncoming_none_of_countZero rest r.id h0
      simp [GlobalState.respond, hc, h2]

/-- Claim C3, witness: completing the pending request id 1 of the concrete
state forwards exactly that response to the outbound channel. -/
theorem c3_witness :
    (exGS.respond ⟨1, "ok"⟩).sender = exGS.sender ++ [⟨1, "ok"⟩] :=
  ((c3_respond exGS ⟨1, "ok"⟩).2.1 "textDocument/hover" 5 [] (by decide)).1

/-- Claim C4: in a successful drain, the batch carries a recomputed
source-root partitioning exactly when some drained Change Record is a
create-or-delete event; when every record is a pure content edit, no root
set is attached to the batch. -/
theorem c4_roots_iff_structural (cfg : SourceRootConfig)
    (cell : Vfs × List (FileId × LineEndings)) (change : AnalysisChange)
    (cell2 : Vfs × List (FileId × LineEndings))
    (h : drainAndBatch cfg cell = some (change, cell2)) :
    change.roots
      = (if cell.1.pending.any (fun it => it.is_created_or_deleted)
         then some (cfg.partition cell.1) else none) :=
  (drainAndBatch_some _ _ _ _ h).2.1

/-- Concrete Vfs whose single pending record is a create event. -/
def exVfsB : Vfs :=
  { paths := [(⟨["b.rs"]⟩, 1)]
    contents := [(1, [0x62])]
    pending := [⟨1, ChangeKind.create⟩] }

/-- The batch drained from `exVfsB`. -/
def exChangeB : AnalysisChange :=
  ⟨some [[1]], [(1, some ['b'])]⟩

/-- The shared cell left behind by draining `exVfsB`. -/
def exCellB : Vfs × List (FileId × LineEndings) :=
  ({ exVfsB with pending := [] }, [(1, LineEndings.unix)])

/-- Claim C4, witness: the create event in `exVfsB` makes the drained batch
carry the recomputed partitioning. -/
theorem c4_witness :
    exChangeB.roots
      = (if exVfsB.pending.any (fun it => it.is_created_or_deleted)
         then some (SourceRootConfig.partition ⟨[]⟩ exVfsB) else none) :=
  c4_roots_iff_structural ⟨[]⟩ (exVfsB, []) exChangeB exCellB (by decide)

/-- Claim C5: in a successful drain, the per-file changes of the batch are
exactly the drained records in drain order, each carrying the
line-ending-normalized decoded text, or absent content when the file no
longer exists or its bytes are not valid text (no error escapes the
batching step — the batch is still produced); the line-endings cell is
updated by exactly the successful decodes; in particular every
deleted-or-undecodable record contributes an absent-content entry, and every
successful decode contributes its normalized text and a recorded
line-endings entry. -/
theorem c5_decode_handling (cfg : SourceRootConfig)
    (cell : Vfs × List (FileId × LineEndings)) (change : AnalysisChange)
    (cell2 : Vfs × List (FileId × LineEndings))
    (h : drainAndBatch cfg cell = some (change, cell2)) :
    change.files_changed = cell.1.pending.map (entryFor cell.1)
      ∧ cell2.2 = cell.1.pending.foldl (lemStep cell.1) cell.2
      ∧ (∀ f ∈ cell.1.pending,
          f.fileExists = false ∨ utf8Decode (cell.1.file_contents f.file_id) = none →
            (f.file_id, (none : Option (List Char))) ∈ change.files_changed)
      ∧ (∀ f ∈ cell.1.pending, ∀ t, decodedText cell.1 f = some t →
          (f.file_id, some (LineEndings.normalize t).1) ∈ change.files_changed
            ∧ alookup f.file_id cell2.2 ≠ none) := by
  obtain ⟨hne, hroots, hfiles, hcell⟩ := drainAndBatch_some _ _ _ _ h
  have h22 : cell2.2 = cell.1.pending.foldl (lemStep cell.1) cell.2 := by
    rw [hcell]
  refine ⟨hfiles, h22, ?_, ?_⟩
  · intro f hf hcase
    have he : entryFor cell.1 f = (f.file_id, none) := by
      rcases hcase with hx | hx <;> simp [entryFor, decodedText, hx]
    rw [hfiles]
    exact he ▸ List.mem_map_of_mem _ hf
  · intro f hf t ht
    constructor
    · have he : entryFor cell.1 f = (f.file_id, some (LineEndings.normalize t).1) := by
        simp [entryFor, ht]
      rw [hfiles]
      exact he ▸ List.mem_map_of_mem _ hf
    · rw [h22, alookup_foldl_lemStep]
      have hb := batchRecorded_ne_none_of_mem cell.1 cell.1.pending f t hf ht
      cases hbr : batchRecorded cell.1 f.file_id cell.1.pending with
      | none => exact absurd hbr hb
      | some le => simp

/-- Concrete Vfs with a mixed batch: file 2's bytes are not valid text,
file 3 decodes with a `"\r\n"` terminator. -/
def exVfsC : Vfs :=
  { paths := [(⟨["c.bin"]⟩, 2), (⟨["d.rs"]⟩, 3)]
    contents := [(2, [0xFF]), (3, [0x64, 0x0D, 0x0A])]
    pending := [⟨2, ChangeKind.modify⟩, ⟨3, ChangeKind.modify⟩] }

/-- The batch drained from `exVfsC`. -/
def exChangeC : AnalysisChange :=
  ⟨none, [(2, none), (3, some ['d', '\n'])]⟩

/-- The shared cell left behind by draining `exVfsC`. -/
def exCellC : Vfs × List (FileId × LineEndings) :=
  ({ exVfsC with pending := [] }, [(3, LineEndings.dos)])

/-- Claim C5, witness: in the mixed batch of `exVfsC`, the undecodable
file 2 contributes an absent-content entry, and the successful decode of
file 3 leaves a recorded line-endings entry. -/
theorem c5_witness :
    ((2 : FileId), (none : Option (List Char))) ∈ exChangeC.files_changed
      ∧ alookup (3 : FileId) exCellC.2 ≠ none := by
  have h := c5_decode_handling ⟨[]⟩ (exVfsC, []) exChangeC exCellC (by decide)
  exact ⟨h.2.2.1 ⟨2, ChangeKind.modify⟩ (by decide) (Or.inr (by decide)),
    (h.2.2.2 ⟨3, ChangeKind.modify⟩ (by decide) ['d', '\r', '\n'] (by decide)).2⟩

/-- Claim C6: for a file whose content was ingested by a change batch,
`file_line_endings` returns the endings recorded by the most recent
successful decode (here: the last successful decode of the drained batch);
for a file never touched by any batch — no prior entry and no successful
decode — the lookup hits the out-of-range error branch, modelled as `none`
(the code indexes the map and panics), and under the ingestion precondition
that branch is unreachable, the first conjunct returning `some`. -/
theorem c6_file_line_endings (gs : GlobalState) (id : FileId) :
    (∀ le, batchRecorded gs.vfs.1 id gs.vfs.1.pending = some le →
        (gs.snapshot).file_line_endings (gs.process_changes).2.vfs id = some le)
      ∧ (batchRecorded gs.vfs.1 id gs.vfs.1.pending = none →
          alookup id gs.vfs.2 = none →
            (gs.snapshot).file_line_endings (gs.process_changes).2.vfs id = none) := by
  have hm := lookupLineEndingsAfter gs id
  constructor
  · intro le h
    simp only [GlobalStateSnapshot.file_line_endings, hm, h]
  · intro h1 h2
    simp only [GlobalStateSnapshot.file_line_endings, hm, h1, h2]

/-- Claim C6, witness: after draining `exVfsA` (whose file 0 decodes with a
double-character terminator), `file_line_endings 0` reports `dos`. -/
theorem c6_witness :
    (exGS.snapshot).file_line_endings (exGS.process_changes).2.vfs 0
      = some LineEndings.dos :=
  (c6_file_line_endings exGS 0).1 LineEndings.dos (by decide)

/-- Claim C7: a `FileId` present in the shared Virtual File Table always
resolves back to a URL: `file_id_to_url` succeeds (never hits its panic
branch), since table keys are absolute paths and ids interned in the table
are never invalidated. -/
theorem c7_file_id_resolvable (snap : GlobalStateSnapshot)
    (shared : Vfs × List (FileId × LineEndings)) (id : FileId) (p : VfsPath)
    (h : (p, id) ∈ shared.1.paths) :
    ∃ u, snap.file_id_to_url shared id = some u := by
  obtain ⟨p2, hp2⟩ := rlookupPath_isSome_of_mem _ _ _ h
  exact ⟨url_from_abs_path p2,
    by simp [GlobalStateSnapshot.file_id_to_url, fileIdToUrl, Vfs.file_path, hp2]⟩

/-- Claim C7, witness: file 0 of the concrete table resolves to a URL. -/
theorem c7_witness :
    ∃ u, (exGS.snapshot).file_id_to_url exGS.vfs 0 = some u :=
  c7_file_id_resolvable exGS.snapshot exGS.vfs 0 ⟨["a.rs"]⟩ (by decide)

/-- Claim C8: when the crate root resolves to a path,
`cargo_target_for_crate_root` equals the single dispatch point that tries
each workspace variant's lookup in list order and returns the first match;
and when no workspace in the list claims the root, it returns `none`. -/
theorem c8_cargo_target (snap : GlobalStateSnapshot)
    (shared : Vfs × List (FileId × LineEndings)) (crate_id : Nat)
    (fid : FileId) (path : VfsPath)
    (h1 : snap.analysis.crate_root crate_id = some fid)
    (h2 : shared.1.file_path fid = some path) :
    snap.cargo_target_for_crate_root shared crate_id
        = firstWorkspaceTarget path snap.workspaces
      ∧ ((∀ w ∈ snap.workspaces, wsTargetLookup path w = none) →
          snap.cargo_target_for_crate_root shared crate_id = none) := by
  have hmain : snap.cargo_target_for_crate_root shared crate_id
      = firstWorkspaceTarget path snap.workspaces := by
    simp [GlobalStateSnapshot.cargo_target_for_crate_root, h1, h2,
      findSome_eq_firstWorkspaceTarget]
  exact ⟨hmain, fun hall => hmain ▸ firstWorkspaceTarget_none _ _ hall⟩

/-- Claim C8, witness: crate 7 of the concrete state roots at file 0, whose
path the cargo workspace claims, and the scan returns that first match. -/
theorem c8_witness :
    (exGS.snapshot).cargo_target_for_crate_root exGS.vfs 7
      = firstWorkspaceTarget ⟨["a.rs"]⟩ exGS.snapshot.workspaces :=
  (c8_cargo_target exGS.snapshot exGS.vfs 7 0 ⟨["a.rs"]⟩ (by decide) (by decide)).1

/-- Claim C9: `status` renders the workspace package counts (or the
no-workspaces line) followed by the Analysis Database's own status string,
and a cancelled status query is replaced by the fixed substitution message —
the result is a total `String`, no cancellation propagates to the caller. -/
theorem c9_status_report (snap : GlobalStateSnapshot) :
    snap.status = workspacesSummary snap.workspaces ++ "\nanalysis:\n"
        ++ analysisStatusOrCancelled snap.analysis.status
      ∧ (snap.analysis.cancelled = true →
          snap.status = workspacesSummary snap.workspaces
            ++ "\nanalysis:\nAnalysis retrieval was cancelled") := by
  have hmain : snap.status = workspacesSummary snap.workspaces ++ "\nanalysis:\n"
      ++ analysisStatusOrCancelled snap.analysis.status := by
    by_cases hws : snap.workspaces.isEmpty = true
    · cases hst : snap.analysis.status <;>
        simp [GlobalStateSnapshot.status, workspacesSummary, analysisStatusOrCancelled,
          hws, hst, String.empty_append, String.append_assoc]
    · cases hst : snap.analysis.status <;>
        simp [GlobalStateSnapshot.status, workspacesSummary, analysisStatusOrCancelled,
          hws, hst, foldl_packagesLines, String.empty_append, String.append_assoc]
  refine ⟨hmain, fun hc => ?_⟩
  have hst : snap.analysis.status = Except.error () := by
    simp [Analysis.status, hc]
  rw [hmain, hst, String.append_assoc]
  rw [show ("\nanalysis:\n" ++ analysisStatusOrCancelled (Except.error ()) : String)
    = "\nanalysis:\nAnalysis retrieval was cancelled" from rfl]

/-- Concrete snapshot whose pinned status query observes cancellation. -/
def exSnapCancelled : GlobalStateSnapshot :=
  { config := 0
    analysis := ⟨3, [], [], "quiescent", true⟩
    workspaces := [] }

/-- Claim C9, witness: a cancelled status query yields the substituted
message after the workspace summary. -/
theorem c9_witness :
    exSnapCancelled.status
      = workspacesSummary exSnapCancelled.workspaces
          ++ "\nanalysis:\nAnalysis retrieval was cancelled" :=
  (c9_status_report exSnapCancelled).2 rfl

/-- Claim C10: the line-endings map's key set only grows across
`process_changes`: a key with a recorded entry still has one afterwards, and
when the drained batch contains no successful decode for that key (deletes,
decode failures, or no record at all), the previously recorded value is
untouched — `file_line_endings` for a deleted or now-binary file still
returns the last recorded value. -/
theorem c10_line_endings_monotone (gs : GlobalState) (id : FileId)
    (le : LineEndings)
    (h : (gs.snapshot).file_line_endings gs.vfs id = some le) :
    ((gs.snapshot).file_line_endings (gs.process_changes).2.vfs id).isSome = true
      ∧ (batchRecorded gs.vfs.1 id gs.vfs.1.pending = none →
          (gs.snapshot).file_line_endings (gs.process_changes).2.vfs id = some le) := by
  have hm := lookupLineEndingsAfter gs id
  simp only [GlobalStateSnapshot.file_line_endings] at h ⊢
  rw [hm]
  cases hbr : batchRecorded gs.vfs.1 id gs.vfs.1.pending <;> simp [h]

/-- Concrete container whose file 0 has a recorded `dos` entry and whose
pending modify record carries undecodable bytes. -/
def exGSD : GlobalState :=
  { sender := []
    config := 0
    analysis_host := exHost
    vfs := (⟨[(⟨["a.rs"]⟩, 0)], [(0, [0xFF])], [⟨0, ChangeKind.modify⟩]⟩,
            [(0, LineEndings.dos)])
    status := Status.ready
    req_queue := []
    source_root_config := ⟨[]⟩
    workspaces := []
    latest_requests := []
    now := 0 }

/-- Claim C10, witness: the decode failure of the drained batch leaves the
previously recorded entry for file 0 in place. -/
theorem c10_witness :
    (exGSD.snapshot).file_line_endings (exGSD.process_changes).2.vfs 0
      = some LineEndings.dos :=
  (c10_line_endings_monotone exGSD 0 LineEndings.dos (by decide)).2 (by decide)

/-- Sanity check of the decoder model: ASCII bytes decode, and a stray
continuation byte is rejected as non-text. -/
theorem utf8Decode_checks :
    utf8Decode [0x61, 0x0D, 0x0A] = some ['a', '\r', '\n']
      ∧ utf8Decode [0xFF] = none
      ∧ utf8Decode [0xC3, 0xA9] = some ['é']
      ∧ LineEndings.normalize ['a', '\r', '\n'] = (['a', '\n'], LineEndings.dos) :=
  ⟨rfl, rfl, rfl, rfl⟩
